import Mathlib

/-!
Verification of the normalization-and-comparison pipeline of `src/app.py`
(file cleaner and comparator for catalog exports).

The Python functions are shallowly embedded as Lean functions over
`List Char` / `String` and over an explicit table type `DFrame`
(column names plus rows of string cells), mirroring the pandas
DataFrames the code manipulates.  Strings are modelled over the
character repertoire the code actually treats specially (ASCII plus
U+200B, U+00A0, U+FEFF): `str.isnumeric` is modelled as "non-empty and
all ASCII decimal digits", `str.upper` as ASCII uppercasing, and the
regex character class `\w` as ASCII word characters, which agree with
Python on that repertoire.
-/

/-! ### Character-level helpers (Python string primitives) -/

/-- Zero-width space U+200B. -/
def zwspChar : Char := Char.ofNat 0x200B

/-- Non-breaking space U+00A0. -/
def nbspChar : Char := Char.ofNat 0x00A0

/-- Byte-order mark U+FEFF. -/
def bomChar : Char := Char.ofNat 0xFEFF

/-- Characters Python's `str.strip()` removes (whitespace per `str.isspace`,
restricted to the modelled repertoire; note U+00A0 is whitespace for Python
while U+200B and U+FEFF are not). -/
def isPySpace (c : Char) : Bool :=
  c == ' ' || c == '\t' || c == '\n' || c == Char.ofNat 0x0D ||
    c == Char.ofNat 0x0B || c == Char.ofNat 0x0C || c == nbspChar

/-- The three invisible characters `clean_isbn` removes with `str.replace`:
zero-width space, non-breaking space, byte-order mark. -/
def isInvisChar (c : Char) : Bool :=
  c == zwspChar || c == nbspChar || c == bomChar

/-- Remove every trailing character satisfying `p` (the right half of
Python's `str.strip()`). -/
def dropTrail (p : Char → Bool) : List Char → List Char
  | [] => []
  | c :: rest =>
    let r := dropTrail p rest
    if r.isEmpty then (if p c then [] else [c]) else c :: r

/-- Python `str.strip()`: remove leading and trailing whitespace. -/
def pyStrip (l : List Char) : List Char :=
  dropTrail isPySpace (l.dropWhile isPySpace)

/-- The three `str.replace(ch, "")` calls of `clean_isbn`, which delete every
occurrence of the three invisible characters. -/
def removeInvis (l : List Char) : List Char :=
  l.filter (fun c => !isInvisChar c)

/-- Python `str.isnumeric` on the modelled repertoire: non-empty and all
ASCII decimal digits. -/
def isNumStr (l : List Char) : Bool :=
  !l.isEmpty && l.all Char.isDigit

/-- Python `str.zfill(w)`: left-pad with `'0'` to width `w`, keeping a
leading sign character in front of the inserted zeros. -/
def pyZfill (l : List Char) (w : Nat) : List Char :=
  if w ≤ l.length then l
  else
    match l with
    | [] => List.replicate w '0'
    | c :: rest =>
      if c == '+' || c == '-' then c :: (List.replicate (w - l.length) '0' ++ rest)
      else List.replicate (w - l.length) '0' ++ l

/-! ### clean_isbn (src/app.py lines 33-37) -/

/-- Core of `clean_isbn` on the character list of a present (non-null)
value: strip, remove invisible characters, then zero-fill numeric strings
shorter than 13. -/
def cleanIsbnCore (l : List Char) : List Char :=
  let x := removeInvis (pyStrip l)
  if isNumStr x && decide (x.length < 13) then pyZfill x 13 else x

/-- Embedding of `clean_isbn` (src/app.py lines 33-37).  A missing value
(`pd.isna`) is modelled as `none`. -/
def clean_isbn (isbn : Option String) : String :=
  match isbn with
  | none => ""
  | some s => String.mk (cleanIsbnCore s.data)

/-- Modelled from the claim's words, for comparison with `clean_isbn`:
missing input gives the empty string; otherwise strip leading/trailing
whitespace and remove every U+200B, U+00A0 and U+FEFF character; if the
remaining string consists entirely of decimal digits and its length is
less than 13, return it left-padded with "0" to exactly length 13;
otherwise return the cleaned string unchanged. -/
def cleanIsbnSpec (isbn : Option String) : String :=
  match isbn with
  | none => ""
  | some s =>
    let x := removeInvis (pyStrip s.data)
    if isNumStr x && decide (x.length < 13) then
      String.mk (List.replicate (13 - x.length) '0' ++ x)
    else String.mk x

example : clean_isbn (some "0123456") = "0000000123456" := by decide
example : clean_isbn none = "" := by decide
example : clean_isbn (some "  9780001234567  ") = "9780001234567" := by decide

/-! ### Basic lemmas about the string helpers -/

theorem dropWhile_eq_self_of_all {p : Char → Bool} {l : List Char}
    (h : ∀ c ∈ l, p c = false) : l.dropWhile p = l := by
  cases l with
  | nil => rfl
  | cons c rest => simp [List.dropWhile_cons, h c (by simp)]

theorem dropWhile_head_false {p : Char → Bool} {l : List Char} {c : Char} {rest : List Char}
    (h : l.dropWhile p = c :: rest) : p c = false := by
  induction l with
  | nil => simp at h
  | cons a as ih =>
    rw [List.dropWhile_cons] at h
    by_cases ha : p a = true
    · exact ih (by simpa [ha] using h)
    · have ha0 : p a = false := by simpa using ha
      rw [if_neg (by simp [ha0])] at h
      obtain ⟨rfl, rfl⟩ := List.cons.injEq .. ▸ h
      exact ha0

theorem dropTrail_eq_self_of_all {p : Char → Bool} {l : List Char}
    (h : ∀ c ∈ l, p c = false) : dropTrail p l = l := by
  induction l with
  | nil => rfl
  | cons c rest ih =>
    have hrest := ih (fun d hd => h d (by simp [hd]))
    unfold dropTrail
    rw [hrest]
    cases rest with
    | nil => simp [h c (by simp)]
    | cons d ds => simp

theorem dropTrail_sublist (p : Char → Bool) (l : List Char) : (dropTrail p l).Sublist l := by
  induction l with
  | nil => simp [dropTrail]
  | cons c rest ih =>
    unfold dropTrail
    by_cases hr : (dropTrail p rest).isEmpty = true
    · rw [if_pos hr]
      by_cases hc : p c = true
      · simp [hc]
      · simp only [hc, if_false, Bool.false_eq_true]
        exact (List.nil_sublist rest).cons₂ c
    · rw [if_neg hr]
      exact ih.cons₂ c

theorem dropTrail_cons (p : Char → Bool) (c : Char) (rest : List Char) :
    dropTrail p (c :: rest) =
      if (dropTrail p rest).isEmpty then (if p c then [] else [c])
      else c :: dropTrail p rest := rfl

theorem dropTrail_idem (p : Char → Bool) (l : List Char) :
    dropTrail p (dropTrail p l) = dropTrail p l := by
  induction l with
  | nil => rfl
  | cons c rest ih =>
    by_cases hr : (dropTrail p rest).isEmpty = true
    · rw [dropTrail_cons, if_pos hr]
      by_cases hc : p c = true
      · rw [if_pos hc]
        rfl
      · rw [if_neg hc]
        have h0 : dropTrail p ([] : List Char) = [] := rfl
        rw [dropTrail_cons, h0]
        simp [hc]
    · rw [dropTrail_cons, if_neg hr, dropTrail_cons, ih, if_neg hr]

theorem dropTrail_exists_false {p : Char → Bool} {l : List Char}
    (hne : l ≠ []) (h : dropTrail p l = l) : ∃ c ∈ l, p c = false := by
  induction l with
  | nil => exact absurd rfl hne
  | cons c rest ih =>
    unfold dropTrail at h
    by_cases hr : (dropTrail p rest).isEmpty = true
    · rw [if_pos hr] at h
      by_cases hc : p c = true
      · rw [if_pos hc] at h
        simp at h
      · have hc0 : p c = false := by simpa using hc
        exact ⟨c, by simp, hc0⟩
    · rw [if_neg hr] at h
      have hrr : dropTrail p rest = rest := (List.cons.injEq .. ▸ h).2
      have hrestne : rest ≠ [] := by
        intro hnil
        rw [hnil] at hr
        simp [dropTrail] at hr
      obtain ⟨d, hd, hdp⟩ := ih hrestne hrr
      exact ⟨d, by simp [hd], hdp⟩

theorem pyspace_not_digit {c : Char} (h : isPySpace c = true) : c.isDigit = false := by
  simp only [isPySpace, Bool.or_eq_true, beq_iff_eq] at h
  rcases h with ((((((h | h) | h) | h) | h) | h) | h) <;> (subst h; decide)

theorem invis_not_digit {c : Char} (h : isInvisChar c = true) : c.isDigit = false := by
  simp only [isInvisChar, Bool.or_eq_true, beq_iff_eq] at h
  rcases h with ((h | h) | h) <;> (subst h; decide)

theorem digit_not_pyspace {c : Char} (h : c.isDigit = true) : isPySpace c = false := by
  cases hs : isPySpace c with
  | false => rfl
  | true => rw [pyspace_not_digit hs] at h; cases h

theorem digit_not_invis {c : Char} (h : c.isDigit = true) : isInvisChar c = false := by
  cases hs : isInvisChar c with
  | false => rfl
  | true => rw [invis_not_digit hs] at h; cases h

theorem pyZfill_of_digits {x : List Char} (hnum : isNumStr x = true) (hlen : x.length < 13) :
    pyZfill x 13 = List.replicate (13 - x.length) '0' ++ x := by
  cases x with
  | nil => simp [isNumStr] at hnum
  | cons c rest =>
    have hd : c.isDigit = true := by
      simp only [isNumStr, Bool.and_eq_true, List.all_cons] at hnum
      exact hnum.2.1
    have hplus : (c == '+') = false := by
      cases h : (c == '+') with
      | false => rfl
      | true =>
        have hc := eq_of_beq h
        rw [hc] at hd
        exact absurd hd (by decide)
    have hminus : (c == '-') = false := by
      cases h : (c == '-') with
      | false => rfl
      | true =>
        have hc := eq_of_beq h
        rw [hc] at hd
        exact absurd hd (by decide)
    unfold pyZfill
    rw [if_neg (by omega)]
    simp [hplus, hminus]

/-- Claim C5: `clean_isbn` maps a missing value to `""`, and on a present
value it strips surrounding whitespace, removes every U+200B, U+00A0 and
U+FEFF character, left-pads all-decimal-digit strings shorter than 13 with
`"0"` to exactly length 13, and otherwise returns the cleaned string
unchanged; it is a total function into strings (never raises).  Stated as
agreement with `cleanIsbnSpec`, the function written from the claim's
words. -/
theorem clean_isbn_correct :
    clean_isbn none = "" ∧ ∀ x : Option String, clean_isbn x = cleanIsbnSpec x := by
  refine ⟨rfl, ?_⟩
  intro x
  cases x with
  | none => rfl
  | some s =>
    show String.mk (cleanIsbnCore s.data) = cleanIsbnSpec (some s)
    have hcore : cleanIsbnCore s.data =
        (if (isNumStr (removeInvis (pyStrip s.data)) &&
            decide ((removeInvis (pyStrip s.data)).length < 13)) = true
         then pyZfill (removeInvis (pyStrip s.data)) 13
         else removeInvis (pyStrip s.data)) := rfl
    have hspec : cleanIsbnSpec (some s) =
        (if (isNumStr (removeInvis (pyStrip s.data)) &&
            decide ((removeInvis (pyStrip s.data)).length < 13)) = true
         then String.mk (List.replicate (13 - (removeInvis (pyStrip s.data)).length) '0' ++
            removeInvis (pyStrip s.data))
         else String.mk (removeInvis (pyStrip s.data))) := rfl
    rw [hcore, hspec]
    by_cases h : (isNumStr (removeInvis (pyStrip s.data)) &&
        decide ((removeInvis (pyStrip s.data)).length < 13)) = true
    · rw [if_pos h, if_pos h]
      rw [Bool.and_eq_true] at h
      exact congrArg String.mk (pyZfill_of_digits h.1 (of_decide_eq_true h.2))
    · rw [if_neg h, if_neg h]

theorem pyStrip_stable (l : List Char) :
    List.dropWhile isPySpace (pyStrip l) = pyStrip l ∧
      dropTrail isPySpace (pyStrip l) = pyStrip l := by
  have hps : pyStrip l = dropTrail isPySpace (l.dropWhile isPySpace) := rfl
  constructor
  · rw [hps]
    cases hm : l.dropWhile isPySpace with
    | nil => rfl
    | cons c rest =>
      have hc : isPySpace c = false := dropWhile_head_false hm
      rw [dropTrail_cons]
      by_cases hr : (dropTrail isPySpace rest).isEmpty = true
      · rw [if_pos hr, if_neg (by simp [hc])]
        simp [List.dropWhile_cons, hc]
      · rw [if_neg hr]
        simp [List.dropWhile_cons, hc]
  · rw [hps]
    exact dropTrail_idem _ _

theorem digits_stable {m : List Char} (h : m.all Char.isDigit = true) :
    pyStrip m = m ∧ removeInvis m = m := by
  have hall := List.all_eq_true.mp h
  constructor
  · show dropTrail isPySpace (m.dropWhile isPySpace) = m
    rw [dropWhile_eq_self_of_all (fun c hc => digit_not_pyspace (hall c hc))]
    exact dropTrail_eq_self_of_all (fun c hc => digit_not_pyspace (hall c hc))
  · exact List.filter_eq_self.mpr (fun c hc => by simp [digit_not_invis (hall c hc)])

theorem dropWhile_filter_stable {p keep : Char → Bool} {m : List Char}
    (hm : m.dropWhile p = m) (hk : ∀ c ∈ m, keep c = false → p c = true) :
    (m.filter keep).dropWhile p = m.filter keep := by
  cases m with
  | nil => rfl
  | cons c rest =>
    have hc : p c = false := dropWhile_head_false hm
    have hkc : keep c = true := by
      cases hkc0 : keep c with
      | true => rfl
      | false => rw [hk c (by simp) hkc0] at hc; cases hc
    rw [List.filter_cons_of_pos hkc]
    simp [List.dropWhile_cons, hc]

theorem dropTrail_filter_stable {p keep : Char → Bool} :
    ∀ m : List Char, dropTrail p m = m → (∀ c ∈ m, keep c = false → p c = true) →
      dropTrail p (m.filter keep) = m.filter keep := by
  intro m
  induction m with
  | nil => intro _ _; rfl
  | cons c rest ih =>
    intro h hk
    by_cases hr : (dropTrail p rest).isEmpty = true
    · rw [dropTrail_cons, if_pos hr] at h
      by_cases hc : p c = true
      · rw [if_pos hc] at h
        exact absurd h (by simp)
      · rw [if_neg hc] at h
        have hrest : rest = [] := ((List.cons.injEq .. ▸ h).2).symm
        subst hrest
        have hkc : keep c = true := by
          cases hkc0 : keep c with
          | true => rfl
          | false => exact absurd (hk c (by simp) hkc0) hc
        simp only [List.filter_cons_of_pos hkc, List.filter_nil]
        rw [dropTrail_cons]
        simp [dropTrail, hc]
    · rw [dropTrail_cons, if_neg hr] at h
      have hrr : dropTrail p rest = rest := (List.cons.injEq .. ▸ h).2
      have hrestne : rest ≠ [] := by
        intro hnil; rw [hnil] at hr; simp [dropTrail] at hr
      have ihr := ih hrr (fun d hd hkd => hk d (by simp [hd]) hkd)
      obtain ⟨d, hd, hdp⟩ := dropTrail_exists_false hrestne hrr
      have hkd : keep d = true := by
        cases hkd0 : keep d with
        | true => rfl
        | false => rw [hk d (by simp [hd]) hkd0] at hdp; cases hdp
      have hfne : rest.filter keep ≠ [] := by
        intro hnil
        have hdm : d ∈ rest.filter keep := List.mem_filter.mpr ⟨hd, hkd⟩
        rw [hnil] at hdm
        cases hdm
      by_cases hkc : keep c = true
      · rw [List.filter_cons_of_pos hkc, dropTrail_cons, ihr,
          if_neg (by simpa [List.isEmpty_iff] using hfne)]
      · rw [List.filter_cons_of_neg (by simp [hkc])]
        exact ihr

theorem cleanIsbnCore_of_stable {m : List Char} (h1 : pyStrip m = m) (h2 : removeInvis m = m) :
    cleanIsbnCore m =
      (if (isNumStr m && decide (m.length < 13)) = true then pyZfill m 13 else m) := by
  have he : cleanIsbnCore m =
      (if (isNumStr (removeInvis (pyStrip m)) &&
          decide ((removeInvis (pyStrip m)).length < 13)) = true
       then pyZfill (removeInvis (pyStrip m)) 13 else removeInvis (pyStrip m)) := rfl
  rw [he, h1, h2]

theorem cleanIsbnCore_idem {l : List Char}
    (h : ∀ c ∈ l, c ≠ zwspChar ∧ c ≠ bomChar) :
    cleanIsbnCore (cleanIsbnCore l) = cleanIsbnCore l := by
  have hps := pyStrip_stable l
  have hsub : (pyStrip l).Sublist l :=
    (dropTrail_sublist _ _).trans (List.dropWhile_sublist _)
  have hk : ∀ c ∈ pyStrip l, (!isInvisChar c) = false → isPySpace c = true := by
    intro c hc hkc
    have hinv : isInvisChar c = true := by simpa using hkc
    have hcl := h c (hsub.subset hc)
    simp only [isInvisChar, Bool.or_eq_true, beq_iff_eq] at hinv
    rcases hinv with (hi | hi) | hi
    · exact absurd hi hcl.1
    · subst hi; decide
    · exact absurd hi hcl.2
  have hxdw : (removeInvis (pyStrip l)).dropWhile isPySpace = removeInvis (pyStrip l) :=
    dropWhile_filter_stable hps.1 hk
  have hxdt : dropTrail isPySpace (removeInvis (pyStrip l)) = removeInvis (pyStrip l) :=
    dropTrail_filter_stable _ hps.2 hk
  have hxri : removeInvis (removeInvis (pyStrip l)) = removeInvis (pyStrip l) :=
    List.filter_eq_self.mpr (fun c hc => (List.mem_filter.mp hc).2)
  have hxps : pyStrip (removeInvis (pyStrip l)) = removeInvis (pyStrip l) := by
    show dropTrail isPySpace ((removeInvis (pyStrip l)).dropWhile isPySpace) =
      removeInvis (pyStrip l)
    rw [hxdw, hxdt]
  have hcx := cleanIsbnCore_of_stable hxps hxri
  have hcl : cleanIsbnCore l =
      (if (isNumStr (removeInvis (pyStrip l)) &&
          decide ((removeInvis (pyStrip l)).length < 13)) = true
       then pyZfill (removeInvis (pyStrip l)) 13 else removeInvis (pyStrip l)) := rfl
  by_cases hg : (isNumStr (removeInvis (pyStrip l)) &&
      decide ((removeInvis (pyStrip l)).length < 13)) = true
  · have hcleq : cleanIsbnCore l = pyZfill (removeInvis (pyStrip l)) 13 := by
      rw [hcl, if_pos hg]
    rw [Bool.and_eq_true] at hg
    obtain ⟨hnum, hlen'⟩ := hg
    have hlen : (removeInvis (pyStrip l)).length < 13 := of_decide_eq_true hlen'
    have hz : pyZfill (removeInvis (pyStrip l)) 13 =
        List.replicate (13 - (removeInvis (pyStrip l)).length) '0' ++ removeInvis (pyStrip l) :=
      pyZfill_of_digits hnum hlen
    have hxall : (removeInvis (pyStrip l)).all Char.isDigit = true := by
      have := hnum
      rw [isNumStr, Bool.and_eq_true] at this
      exact this.2
    have hzdig : (pyZfill (removeInvis (pyStrip l)) 13).all Char.isDigit = true := by
      rw [hz, List.all_append, Bool.and_eq_true]
      refine ⟨?_, hxall⟩
      exact List.all_eq_true.mpr (fun c hc => by rw [List.eq_of_mem_replicate hc]; decide)
    have hzlen : (pyZfill (removeInvis (pyStrip l)) 13).length = 13 := by
      rw [hz]
      simp only [List.length_append, List.length_replicate]
      omega
    have hzne : pyZfill (removeInvis (pyStrip l)) 13 ≠ [] := by
      intro h0
      rw [h0] at hzlen
      simp at hzlen
    have hzstab := digits_stable hzdig
    have hzcore := cleanIsbnCore_of_stable hzstab.1 hzstab.2
    rw [hcleq, hzcore, if_neg (by simp [hzlen])]
  · have hcleq : cleanIsbnCore l = removeInvis (pyStrip l) := by
      rw [hcl, if_neg hg]
    rw [hcleq, hcx, if_neg hg]

/-- Claim C8 counterexample: `clean_isbn` is not idempotent.  On the input
"U+200B space a", the first pass strips nothing (U+200B is not whitespace),
then removes the zero-width space, exposing a leading ordinary space; the
second pass strips that space, giving a different result. -/
theorem clean_isbn_idem_cex :
    clean_isbn (some (clean_isbn (some (String.mk [zwspChar, ' ', 'a'])))) ≠
      clean_isbn (some (String.mk [zwspChar, ' ', 'a'])) := by decide

/-- Claim C8 (amended): `clean_isbn` is idempotent on a missing value and on
every present value containing no U+200B and no U+FEFF character (removal of
those two non-whitespace characters is what can expose new leading or
trailing whitespace to a second pass; U+00A0 is itself whitespace, so its
removal is harmless). -/
theorem clean_isbn_idem_amended :
    clean_isbn (some (clean_isbn none)) = clean_isbn none ∧
    ∀ s : String, (∀ c ∈ s.data, c ≠ zwspChar ∧ c ≠ bomChar) →
      clean_isbn (some (clean_isbn (some s))) = clean_isbn (some s) := by
  refine ⟨by decide, ?_⟩
  intro s hs
  show String.mk (cleanIsbnCore (String.mk (cleanIsbnCore s.data)).data) =
    String.mk (cleanIsbnCore s.data)
  exact congrArg String.mk (cleanIsbnCore_idem hs)

/-- Claim C8 witness: idempotence holds at the concrete input " 42" followed
by a non-breaking space. -/
theorem clean_isbn_idem_witness :
    clean_isbn (some (clean_isbn (some (String.mk [' ', '4', '2', nbspChar])))) =
      clean_isbn (some (String.mk [' ', '4', '2', nbspChar])) :=
  clean_isbn_idem_amended.2 (String.mk [' ', '4', '2', nbspChar]) (by decide)

/-! ### Tables (pandas DataFrames) -/

/-- A pandas DataFrame of string cells: ordered column labels and rows.
Cell (r, c) is `r.getD i ""` where `i` is the position of label `c`. -/
structure DFrame where
  cols : List String
  rows : List (List String)
deriving DecidableEq

/-- Position of the first column with label `c` (pandas label lookup). -/
def colIdx (cols : List String) (c : String) : Option Nat :=
  match cols with
  | [] => none
  | c0 :: rest => if c0 = c then some 0 else (colIdx rest c).map (fun i => i + 1)

/-- The cell of row `r` in the column labelled `c` (empty string when the
label or the cell is absent; the pipeline only reads labels it knows are
present). -/
def cellAt (cols : List String) (r : List String) (c : String) : String :=
  ((colIdx cols c).map (fun i => r.getD i "")).getD ""

/-- The full column of values under label `c` (pandas `df[c]`). -/
def DFrame.colVals (d : DFrame) (c : String) : List String :=
  d.rows.map (fun r => cellAt d.cols r c)

/-- Embedding of the comparison step (src/app.py lines 152-154):
`new_items = d2[~d2[key2].isin(d1[key1])]` and
`inactive_items = d1[~d1[key1].isin(d2[key2])]`. -/
def compareTables (dA : DFrame) (keyA : String) (dB : DFrame) (keyB : String) :
    DFrame × DFrame :=
  (⟨dB.cols, dB.rows.filter (fun r => !((dA.colVals keyA).contains (cellAt dB.cols r keyB)))⟩,
   ⟨dA.cols, dA.rows.filter (fun r => !((dB.colVals keyB).contains (cellAt dA.cols r keyA)))⟩)

/-- Claim C1: the comparator returns as `new_items` exactly the rows of
table B whose key value does not appear anywhere in table A's key column,
and as `inactive_items` exactly the rows of A whose key value does not
appear in B's key column; both results keep their source table's columns
and are sublists of the source rows (original order, rows only filtered,
never added or modified). -/
theorem compare_correct (dA dB : DFrame) (keyA keyB : String) :
    (compareTables dA keyA dB keyB).1.cols = dB.cols ∧
    (compareTables dA keyA dB keyB).2.cols = dA.cols ∧
    (compareTables dA keyA dB keyB).1.rows.Sublist dB.rows ∧
    (compareTables dA keyA dB keyB).2.rows.Sublist dA.rows ∧
    (∀ r, r ∈ (compareTables dA keyA dB keyB).1.rows ↔
      r ∈ dB.rows ∧ cellAt dB.cols r keyB ∉ dA.colVals keyA) ∧
    (∀ r, r ∈ (compareTables dA keyA dB keyB).2.rows ↔
      r ∈ dA.rows ∧ cellAt dA.cols r keyA ∉ dB.colVals keyB) := by
  refine ⟨rfl, rfl, List.filter_sublist _, List.filter_sublist _, ?_, ?_⟩
  · intro r
    simp [compareTables, List.mem_filter]
  · intro r
    simp [compareTables, List.mem_filter]

/-- Claim C1 witness: on tables with key column "K", A-keys ["A", "B"] and
B-keys ["B", "C"], the row with key "C" is in new_items and the row with
key "B" is not. -/
theorem compare_correct_witness :
    ["C"] ∈ (compareTables ⟨["K"], [["A"], ["B"]]⟩ "K" ⟨["K"], [["B"], ["C"]]⟩ "K").1.rows ∧
    ¬ ["B"] ∈ (compareTables ⟨["K"], [["A"], ["B"]]⟩ "K" ⟨["K"], [["B"], ["C"]]⟩ "K").1.rows := by
  constructor
  · exact ((compare_correct ⟨["K"], [["A"], ["B"]]⟩ ⟨["K"], [["B"], ["C"]]⟩ "K" "K").2.2.2.2.1
      ["C"]).mpr ⟨by decide, by decide⟩
  · intro hmem
    have h := ((compare_correct ⟨["K"], [["A"], ["B"]]⟩ ⟨["K"], [["B"], ["C"]]⟩ "K" "K").2.2.2.2.1
      ["B"]).mp hmem
    exact h.2 (by decide)

/-! ### clean_file (src/app.py lines 84-100) -/

/-- Canonical required columns of the ISBN13 schema variant
(src/app.py lines 23-26). -/
def REQUIRED_COLUMNS_ISBN : List String :=
  ["ISBN13", "TITLE", "AUTHOR", "DISCOUNT", "STOCK", "CUR",
   "DIM1", "DIM2", "DIM3", "WEIGHT", "PUBLISHER", "IMPRINT"]

/-- Canonical required columns of the EAN schema variant
(src/app.py lines 27-30). -/
def REQUIRED_COLUMNS_EAN : List String :=
  ["EAN", "TITLE", "AUTHOR", "PUBLISHER", "QTYAV", "CUR", "PRICE",
   "WGT OZS", "LENGTH", "WIDTH", "HEIGHT", "CD"]

/-- Column selection `df[[...]]` (src/app.py line 92): keep the named
columns in the given order, projecting every row. -/
def DFrame.select (d : DFrame) (cs : List String) : DFrame :=
  ⟨cs, d.rows.map (fun r => cs.map (fun c => cellAt d.cols r c))⟩

/-- Exclusion filtering `df[~df[key].isin(remove_set)]`
(src/app.py line 90). -/
def DFrame.removeKeys (d : DFrame) (key : String) (s : List String) : DFrame :=
  ⟨d.cols, d.rows.filter (fun r => !(s.contains (cellAt d.cols r key)))⟩

/-- Lines 94-96 of src/app.py: append an empty `CUR` column when absent,
then assign `cur` to the `CUR` column of every row. -/
def setCur (d : DFrame) (cur : String) : DFrame :=
  if "CUR" ∈ d.cols then
    ⟨d.cols, d.rows.map (fun r => r.set ((colIdx d.cols "CUR").getD 0) cur)⟩
  else
    ⟨d.cols ++ ["CUR"], d.rows.map (fun r => r ++ [cur])⟩

/-- `df.reindex(columns=required_columns, fill_value="")` (src/app.py
line 98): exactly the given columns in the given order, existing columns
keep their values, missing ones are filled with the empty string. -/
def DFrame.reindex (d : DFrame) (cs : List String) : DFrame :=
  ⟨cs, d.rows.map (fun r => cs.map (fun c => if c ∈ d.cols then cellAt d.cols r c else ""))⟩

/-- Embedding of `clean_file` after `process_file` has produced the
decoded table `df` and its key column (src/app.py lines 84-100): choose
the required-column list by the exact membership test
`"ISBN13" in df.columns`, optionally drop excluded keys, select the
required columns that are present, set the `CUR` column to `cur`, and
reindex to the required list with empty-string fill. -/
def clean_file_post (df : DFrame) (key : String) (cur : String)
    (removeSet : Option (List String)) : DFrame :=
  let required :=
    if "ISBN13" ∈ df.cols then REQUIRED_COLUMNS_ISBN else REQUIRED_COLUMNS_EAN
  let df1 := match removeSet with
    | some s => df.removeKeys key s
    | none => df
  let df2 := df1.select (required.filter (fun c => df1.cols.contains c))
  let df3 := setCur df2 cur
  df3.reindex required

/-! ### Lemmas about column lookup -/

theorem colIdx_eq_some {cols : List String} {c : String} {i : Nat}
    (h : colIdx cols c = some i) : i < cols.length ∧ cols[i]? = some c := by
  induction cols generalizing i with
  | nil => simp [colIdx] at h
  | cons c0 rest ih =>
    rw [colIdx] at h
    by_cases h0 : c0 = c
    · rw [if_pos h0] at h
      have h1 : i = 0 := (Option.some.injEq .. ▸ h).symm
      subst h1
      simp [h0]
    · rw [if_neg h0] at h
      obtain ⟨j, hj, hji⟩ := Option.map_eq_some'.mp h
      obtain ⟨hlt, hget⟩ := ih hj
      subst hji
      refine ⟨by simpa using Nat.succ_lt_succ hlt, ?_⟩
      simpa using hget

theorem colIdx_of_mem {cols : List String} {c : String} (h : c ∈ cols) :
    ∃ i, colIdx cols c = some i := by
  induction cols with
  | nil => cases h
  | cons c0 rest ih =>
    by_cases h0 : c0 = c
    · exact ⟨0, by simp [colIdx, h0]⟩
    · have hmem : c ∈ rest := by
        rcases List.mem_cons.mp h with h1 | h1
        · exact absurd h1.symm h0
        · exact h1
      obtain ⟨j, hj⟩ := ih hmem
      exact ⟨j + 1, by simp [colIdx, h0, hj]⟩

theorem colIdx_append_self {cols : List String} {c : String} (h : c ∉ cols) :
    colIdx (cols ++ [c]) c = some cols.length := by
  induction cols with
  | nil => simp [colIdx]
  | cons c0 rest ih =>
    have h0 : ¬(c0 = c) := fun he => h (by simp [he])
    have hrest : c ∉ rest := fun hm => h (by simp [hm])
    simp [colIdx, h0, ih hrest]

theorem cellAt_of_idx {cols : List String} {r : List String} {c : String} {i : Nat}
    (h : colIdx cols c = some i) : cellAt cols r c = r.getD i "" := by
  rw [cellAt, h]
  rfl

theorem cellAt_set_self {cols : List String} {r : List String} {c v : String} {i : Nat}
    (hidx : colIdx cols c = some i) (hlen : r.length = cols.length) :
    cellAt cols (r.set i v) c = v := by
  rw [cellAt_of_idx hidx]
  have hi : i < r.length := by
    rw [hlen]
    exact (colIdx_eq_some hidx).1
  rw [List.getD_eq_getElem?_getD]
  rw [List.getElem?_set_self]
  · rfl
  · exact hi

theorem cellAt_append_self {cols : List String} {r : List String} {c v : String}
    (hc : c ∉ cols) (hlen : r.length = cols.length) :
    cellAt (cols ++ [c]) (r ++ [v]) c = v := by
  rw [cellAt_of_idx (colIdx_append_self hc), List.getD_eq_getElem?_getD]
  rw [← hlen]
  simp

/-- After `setCur`, the `CUR` column exists and holds `cur` in every row
that came from a well-formed table. -/
theorem setCur_spec (d : DFrame) (cur : String)
    (hwf : ∀ r ∈ d.rows, r.length = d.cols.length) :
    "CUR" ∈ (setCur d cur).cols ∧
      ∀ r ∈ (setCur d cur).rows, cellAt (setCur d cur).cols r "CUR" = cur := by
  by_cases hmem : "CUR" ∈ d.cols
  · rw [setCur, if_pos hmem]
    refine ⟨hmem, ?_⟩
    intro r hr
    obtain ⟨r0, hr0, hr0e⟩ := List.mem_map.mp hr
    subst hr0e
    obtain ⟨i, hi⟩ := colIdx_of_mem hmem
    rw [hi]
    exact cellAt_set_self hi (hwf r0 hr0)
  · rw [setCur, if_neg hmem]
    refine ⟨by simp, ?_⟩
    intro r hr
    obtain ⟨r0, hr0, hr0e⟩ := List.mem_map.mp hr
    subst hr0e
    exact cellAt_append_self hmem (hwf r0 hr0)

/-- The columns of `setCur d cur` are `d.cols` or `d.cols ++ ["CUR"]`; in
particular a label other than `CUR` is a column of the result only when it
is one of `d`'s. -/
theorem setCur_cols_sub (d : DFrame) (cur : String) {c : String}
    (hne : c ≠ "CUR") (h : c ∈ (setCur d cur).cols) : c ∈ d.cols := by
  by_cases hmem : "CUR" ∈ d.cols
  · rw [setCur, if_pos hmem] at h
    exact h
  · rw [setCur, if_neg hmem] at h
    rcases List.mem_append.mp h with h1 | h1
    · exact h1
    · simp at h1
      exact absurd h1 hne

/-- Rows of a `select` result are as long as its column list. -/
theorem select_wf (d : DFrame) (cs : List String) :
    ∀ r ∈ (d.select cs).rows, r.length = (d.select cs).cols.length := by
  intro r hr
  obtain ⟨r0, _, hr0e⟩ := List.mem_map.mp hr
  subst hr0e
  simp [DFrame.select]

/-- Every row of a `reindex` result comes from a source row, with each cell
determined by the source table: the column's value when the label exists,
the empty string otherwise. -/
theorem reindex_spec (d : DFrame) (cs : List String) :
    (d.reindex cs).cols = cs ∧
    ∀ r ∈ (d.reindex cs).rows, ∃ r0 ∈ d.rows, ∀ (i : Nat) (c : String), cs[i]? = some c →
      r[i]? = some (if c ∈ d.cols then cellAt d.cols r0 c else "") := by
  refine ⟨rfl, ?_⟩
  intro r hr
  obtain ⟨r0, hr0, hr0e⟩ := List.mem_map.mp hr
  refine ⟨r0, hr0, ?_⟩
  intro i c hci
  subst hr0e
  rw [List.getElem?_map, hci]
  rfl

/-- Composite of steps 94-98 of src/app.py: after setting `CUR` and
reindexing, the columns are exactly `required`, the `CUR` positions hold
`cur`, and positions of labels absent from the intermediate table (other
than `CUR`) hold the empty string. -/
theorem reindex_setCur_spec (d2 : DFrame) (cur : String) (required : List String)
    (hwf : ∀ r ∈ d2.rows, r.length = d2.cols.length) :
    ((setCur d2 cur).reindex required).cols = required ∧
    (∀ r ∈ ((setCur d2 cur).reindex required).rows, ∀ i : Nat,
      required[i]? = some "CUR" → r[i]? = some cur) ∧
    (∀ c, c ∉ d2.cols → c ≠ "CUR" →
      ∀ r ∈ ((setCur d2 cur).reindex required).rows, ∀ i : Nat,
        required[i]? = some c → r[i]? = some "") := by
  obtain ⟨hcurmem, hcurval⟩ := setCur_spec d2 cur hwf
  refine ⟨rfl, ?_, ?_⟩
  · intro r hr i hci
    obtain ⟨r0, hr0, hval⟩ := (reindex_spec (setCur d2 cur) required).2 r hr
    rw [hval i "CUR" hci, if_pos hcurmem, hcurval r0 hr0]
  · intro c hc hcne r hr i hci
    obtain ⟨r0, hr0, hval⟩ := (reindex_spec (setCur d2 cur) required).2 r hr
    rw [hval i c hci, if_neg (fun hmem => hc (setCur_cols_sub d2 cur hcne hmem))]

/-- Claim C2: for every table produced by `process_file`, `clean_file`
returns a table whose columns are exactly the detected variant's canonical
required-column list (ISBN13 variant when the exact column `ISBN13` is
present, EAN variant otherwise) in that fixed order, whose `CUR` column
equals the supplied currency in every row (overwriting any input value),
and whose required columns absent from the input (`CUR` excepted, which is
set to the currency) hold the empty string in every row. -/
theorem clean_file_schema (df : DFrame) (key cur : String) (rs : Option (List String)) :
    (clean_file_post df key cur rs).cols =
      (if "ISBN13" ∈ df.cols then REQUIRED_COLUMNS_ISBN else REQUIRED_COLUMNS_EAN) ∧
    (∀ r ∈ (clean_file_post df key cur rs).rows, ∀ i : Nat,
      (clean_file_post df key cur rs).cols[i]? = some "CUR" → r[i]? = some cur) ∧
    (∀ c, c ∉ df.cols → c ≠ "CUR" →
      ∀ r ∈ (clean_file_post df key cur rs).rows, ∀ i : Nat,
        (clean_file_post df key cur rs).cols[i]? = some c → r[i]? = some "") := by
  have hdf1cols : (match rs with
      | some s => df.removeKeys key s
      | none => df).cols = df.cols := by
    cases rs <;> rfl
  have hspec := reindex_setCur_spec
    ((match rs with
      | some s => df.removeKeys key s
      | none => df).select
      ((if "ISBN13" ∈ df.cols then REQUIRED_COLUMNS_ISBN else REQUIRED_COLUMNS_EAN).filter
        (fun c => (match rs with
          | some s => df.removeKeys key s
          | none => df).cols.contains c)))
    cur
    (if "ISBN13" ∈ df.cols then REQUIRED_COLUMNS_ISBN else REQUIRED_COLUMNS_EAN)
    (select_wf _ _)
  refine ⟨rfl, ?_, ?_⟩
  · intro r hr i hci
    exact hspec.2.1 r hr i hci
  · intro c hc hcne r hr i hci
    refine hspec.2.2 c ?_ hcne r hr i hci
    intro hcmem
    have : (match rs with
        | some s => df.removeKeys key s
        | none => df).cols.contains c = true := (List.mem_filter.mp hcmem).2
    exact hc (hdf1cols ▸ List.elem_iff.mp this)

/-- Claim C2 witness: a table with columns ISBN13/TITLE/AUTHOR/STOCK and
currency "USD" yields the ISBN13 canonical columns, `CUR` (position 5)
equal to "USD", and the missing DISCOUNT column (position 3) empty. -/
theorem clean_file_schema_witness :
    (clean_file_post ⟨["ISBN13", "TITLE", "AUTHOR", "STOCK"], [["123", "T", "A", "5"]]⟩
        "ISBN13" "USD" none).cols = REQUIRED_COLUMNS_ISBN ∧
    ((clean_file_post ⟨["ISBN13", "TITLE", "AUTHOR", "STOCK"], [["123", "T", "A", "5"]]⟩
        "ISBN13" "USD" none).rows.getD 0 [])[5]? = some "USD" ∧
    ((clean_file_post ⟨["ISBN13", "TITLE", "AUTHOR", "STOCK"], [["123", "T", "A", "5"]]⟩
        "ISBN13" "USD" none).rows.getD 0 [])[3]? = some "" := by
  refine ⟨?_, ?_, ?_⟩
  · have h := (clean_file_schema ⟨["ISBN13", "TITLE", "AUTHOR", "STOCK"],
      [["123", "T", "A", "5"]]⟩ "ISBN13" "USD" none).1
    rw [h, if_pos (by decide)]
  · exact (clean_file_schema ⟨["ISBN13", "TITLE", "AUTHOR", "STOCK"],
      [["123", "T", "A", "5"]]⟩ "ISBN13" "USD" none).2.1 _ (by decide) 5 (by decide)
  · exact (clean_file_schema ⟨["ISBN13", "TITLE", "AUTHOR", "STOCK"],
      [["123", "T", "A", "5"]]⟩ "ISBN13" "USD" none).2.2 "DISCOUNT" (by decide) (by decide)
      _ (by decide) 3 (by decide)

/-- Claim C10: `clean_file` selects the ISBN variant's required columns
only when the exact cleaned name "ISBN13" is a column; otherwise it
reindexes to the EAN variant's columns, so any column not in the EAN list
— in particular a key column such as "ISBN 13" that matched the key
pattern only as a substring with a different cleaned name — is dropped
from the output entirely. -/
theorem clean_file_variant (df : DFrame) (key cur : String) (rs : Option (List String)) :
    (clean_file_post df key cur rs).cols =
      (if "ISBN13" ∈ df.cols then REQUIRED_COLUMNS_ISBN else REQUIRED_COLUMNS_EAN) ∧
    ("ISBN13" ∉ df.cols → ∀ c, c ∉ REQUIRED_COLUMNS_EAN →
      c ∉ (clean_file_post df key cur rs).cols) := by
  have h0 : (clean_file_post df key cur rs).cols =
      (if "ISBN13" ∈ df.cols then REQUIRED_COLUMNS_ISBN else REQUIRED_COLUMNS_EAN) := rfl
  refine ⟨h0, ?_⟩
  intro hmem c hc
  rw [h0, if_neg hmem]
  exact hc

/-- Claim C10 witness: a table whose key column is "ISBN 13" (internal
space kept by cleaning, so it is not the exact name "ISBN13") is reindexed
to the EAN columns and the key column "ISBN 13" is dropped. -/
theorem clean_file_variant_witness :
    (clean_file_post ⟨["ISBN 13", "TITLE"], [["42", "T"]]⟩ "ISBN 13" "USD" none).cols =
      REQUIRED_COLUMNS_EAN ∧
    "ISBN 13" ∉ (clean_file_post ⟨["ISBN 13", "TITLE"], [["42", "T"]]⟩
      "ISBN 13" "USD" none).cols := by
  constructor
  · have h := (clean_file_variant ⟨["ISBN 13", "TITLE"], [["42", "T"]]⟩ "ISBN 13" "USD" none).1
    rw [h, if_neg (by decide)]
  · exact (clean_file_variant ⟨["ISBN 13", "TITLE"], [["42", "T"]]⟩ "ISBN 13" "USD" none).2
      (by decide) "ISBN 13" (by decide)

/-! ### Column-name cleaning and key-column selection
(src/app.py lines 39-49 and 61-65) -/

/-- ASCII model of the regex class `\w`. -/
def isWordChar (c : Char) : Bool :=
  c.isAlphanum || c == '_'

/-- Python regex replace of the class complementary to word characters and
whitespace with "" (lines 46 and 61); note this removes `#` as well, since
`#` is neither a word character nor whitespace. -/
def removeNonWord (l : List Char) : List Char :=
  l.filter (fun c => isWordChar c || isPySpace c)

/-- Column-name cleaning (src/app.py line 61): strip, uppercase, remove
characters other than word characters and whitespace, strip again. -/
def cleanColumnName (s : String) : String :=
  String.mk (pyStrip (removeNonWord ((pyStrip s.data).map Char.toUpper)))

/-- Cell cleaning inside `detect_header` (src/app.py line 46): uppercase,
remove non-word non-whitespace characters, strip. -/
def cleanHeaderCell (s : String) : String :=
  String.mk (pyStrip (removeNonWord (s.data.map Char.toUpper)))

def startsWithChars : List Char → List Char → Bool
  | [], _ => true
  | _ :: _, [] => false
  | a :: as, b :: bs => a == b && startsWithChars as bs

/-- Python substring containment `pat in s`. -/
def containsSub (pat : List Char) : List Char → Bool
  | [] => startsWithChars pat []
  | c :: rest => startsWithChars pat (c :: rest) || containsSub pat rest

/-- Python `str.replace(" ", "")`: remove ASCII spaces. -/
def removeSpaces (l : List Char) : List Char :=
  l.filter (fun c => c != ' ')

/-- The key-column predicate of src/app.py line 63: the (already cleaned)
name with spaces removed contains "ISBN13" or "EAN". -/
def keyColMatch (c : String) : Bool :=
  containsSub "ISBN13".data (removeSpaces c.data) ||
    containsSub "EAN".data (removeSpaces c.data)

/-- Embedding of the key-column selection of `process_file` (src/app.py
line 63) over the cleaned column names: the first column, in column order,
satisfying `keyColMatch`; `none` models the KeyError of lines 64-65. -/
def keyColumnCode (cols : List String) : Option String :=
  cols.find? keyColMatch

/-- Modelled from the claim's words, for comparison with `keyColumnCode`:
test the "ISBN13" pattern across all columns first, then "EAN#"/"EAN",
then bare "ISBN", each on the cleaned name with spaces removed, returning
the first column matching the earliest pattern; when nothing matches,
none. -/
def keyColumnSpec (cols : List String) : Option String :=
  match cols.find? (fun c => containsSub "ISBN13".data (removeSpaces c.data)) with
  | some c => some c
  | none =>
    match cols.find? (fun c => containsSub "EAN#".data (removeSpaces c.data) ||
        containsSub "EAN".data (removeSpaces c.data)) with
    | some c => some c
    | none => cols.find? (fun c => containsSub "ISBN".data (removeSpaces c.data))

example : cleanColumnName "  isbn13 " = "ISBN13" := by decide
example : cleanColumnName "EAN #" = "EAN" := by decide

/-- Claim C3 counterexample: a column named exactly "ISBN" matches the
claim's third pattern but `process_file` finds no key column at all; and
with columns ["EAN", "ISBN13"] the code picks "EAN" (first column in
column order) while the claim's pattern-priority picks "ISBN13". -/
theorem keyColumn_cex :
    keyColumnCode ["ISBN"] = none ∧ keyColumnSpec ["ISBN"] = some "ISBN" ∧
    keyColumnCode ["EAN", "ISBN13"] = some "EAN" ∧
    keyColumnSpec ["EAN", "ISBN13"] = some "ISBN13" := by decide

/-- Claim C3 (amended): `process_file` selects as key column the first
column, in the table's column order, whose cleaned name with spaces
removed contains "ISBN13" or "EAN" as a substring (bare "ISBN" does not
match, and there is no pattern-priority pass across columns), and it fails
with the "no key column" error exactly when no column matches either
pattern. -/
theorem keyColumn_amended (cols : List String) :
    (keyColumnCode cols = none ↔ ∀ c ∈ cols, keyColMatch c = false) ∧
    (∀ c, keyColumnCode cols = some c → keyColMatch c = true ∧
      ∃ l1 l2, cols = l1 ++ c :: l2 ∧ ∀ x ∈ l1, keyColMatch x = false) := by
  constructor
  · simp only [keyColumnCode, List.find?_eq_none]
    constructor
    · intro h c hc
      simpa using h c hc
    · intro h c hc
      simp [h c hc]
  · intro c
    induction cols with
    | nil => intro h; simp [keyColumnCode] at h
    | cons c0 rest ih =>
      intro h
      simp only [keyColumnCode] at h
      by_cases h0 : keyColMatch c0 = true
      · rw [List.find?_cons_of_pos _ h0] at h
        have he : c0 = c := by injection h
        subst he
        exact ⟨h0, [], rest, rfl, by simp⟩
      · rw [List.find?_cons_of_neg _ (by simpa using h0)] at h
        obtain ⟨hm, l1, l2, he, hall⟩ := ih h
        refine ⟨hm, c0 :: l1, l2, by rw [he]; rfl, ?_⟩
        intro x hx
        rcases List.mem_cons.mp hx with h1 | h1
        · subst h1
          simpa using h0
        · exact hall x h1

/-- Claim C3 witness: with the single column "TITLE" nothing matches and
the code reports no key column. -/
theorem keyColumn_amended_witness : keyColumnCode ["TITLE"] = none :=
  (keyColumn_amended ["TITLE"]).1.mpr (by decide)

/-! ### detect_header (src/app.py lines 39-49) -/

/-- Index of the first row satisfying `p`, counting from `i` (the
`for i, row in df.iterrows()` loop of lines 45-48). -/
def findRowIdx (p : List String → Bool) (i : Nat) : List (List String) → Option Nat
  | [] => none
  | row :: rest => if p row then some i else findRowIdx p (i + 1) rest

/-- Row test of src/app.py line 47: some cell's cleaned text with spaces
removed contains "ISBN13" or "EAN". -/
def rowHasKey (row : List String) : Bool :=
  row.any (fun v => containsSub "ISBN13".data (removeSpaces (cleanHeaderCell v).data) ||
    containsSub "EAN".data (removeSpaces (cleanHeaderCell v).data))

/-- Embedding of `detect_header` (src/app.py lines 39-49): scan the first
20 rows (`nrows=20`) of the raw grid and return the index of the first row
containing a key-pattern cell; `none` models the KeyError of line 49. -/
def detect_header (grid : List (List String)) : Option Nat :=
  findRowIdx rowHasKey 0 (grid.take 20)

/-- Modelled from the claim's words, for comparison with `rowHasKey`: the
cell is cleaned by uppercasing, removing characters other than word
characters, whitespace and `#`, and stripping; it matches when the cleaned
text with internal spaces removed contains "ISBN13", "EAN" or "ISBN". -/
def rowHasKeySpec (row : List String) : Bool :=
  row.any (fun v =>
    let cleaned := removeSpaces (pyStrip ((v.data.map Char.toUpper).filter
      (fun c => isWordChar c || isPySpace c || c == '#')))
    containsSub "ISBN13".data cleaned || containsSub "EAN".data cleaned ||
      containsSub "ISBN".data cleaned)

/-- Modelled from the claim's words: first row, within the 20-row scan
window, containing a cell matching `rowHasKeySpec`. -/
def detectHeaderSpec (grid : List (List String)) : Option Nat :=
  findRowIdx rowHasKeySpec 0 (grid.take 20)

example : detect_header [["x"], ["y"], ["z"], ["ISBN13"]] = some 3 := by decide

/-- Claim C4 counterexample: a grid whose only cell is the bare "ISBN"
satisfies the claim's pattern list (third pattern) but `detect_header`
finds no header row; conversely the cell "EA#N" is cleaned by the code to
"EAN" (the `#` is removed, not kept) and detected, though it contains none
of the claim's patterns under the claim's `#`-preserving cleaning. -/
theorem detect_header_cex :
    detect_header [["ISBN"]] = none ∧ detectHeaderSpec [["ISBN"]] = some 0 ∧
    detect_header [["EA#N"]] = some 0 ∧ detectHeaderSpec [["EA#N"]] = none := by decide

theorem findRowIdx_eq_none {p : List String → Bool} {g : List (List String)} {i : Nat} :
    findRowIdx p i g = none ↔ ∀ row ∈ g, p row = false := by
  induction g generalizing i with
  | nil => simp [findRowIdx]
  | cons row rest ih =>
    rw [findRowIdx]
    by_cases hp : p row = true
    · simp [hp]
    · have hp0 : p row = false := by simpa using hp
      rw [if_neg (by simp [hp0])]
      rw [ih]
      constructor
      · intro h r hr
        rcases List.mem_cons.mp hr with h1 | h1
        · subst h1; exact hp0
        · exact h r h1
      · intro h r hr
        exact h r (by simp [hr])

theorem findRowIdx_eq_some {p : List String → Bool} {g : List (List String)} {i k : Nat}
    (h : findRowIdx p i g = some k) :
    i ≤ k ∧ ∃ row, g[k - i]? = some row ∧ p row = true ∧
      ∀ j < k - i, ∀ row2, g[j]? = some row2 → p row2 = false := by
  induction g generalizing i with
  | nil => simp [findRowIdx] at h
  | cons row rest ih =>
    rw [findRowIdx] at h
    by_cases hp : p row = true
    · rw [if_pos hp] at h
      have hk : i = k := by injection h
      subst hk
      refine ⟨Nat.le_refl i, row, ?_, hp, ?_⟩
      · simp
      · intro j hj
        omega
    · have hp0 : p row = false := by simpa using hp
      rw [if_neg (by simp [hp0])] at h
      obtain ⟨hik, row1, hrow1, hprow1, hbefore⟩ := ih h
      have hik' : i ≤ k := by omega
      refine ⟨hik', row1, ?_, hprow1, ?_⟩
      · have hki : k - i = (k - (i + 1)) + 1 := by omega
        rw [hki]
        simpa using hrow1
      · intro j hj row2 hrow2
        cases j with
        | zero =>
          have he : row = row2 := by simpa using hrow2
          rw [← he]
          exact hp0
        | succ j0 =>
          have hj0 : j0 < k - (i + 1) := by omega
          exact hbefore j0 hj0 row2 (by simpa using hrow2)

/-- Claim C4 (amended): `detect_header` returns the index of the first
row, within the 20-row scan window, containing at least one cell whose
cleaned text (uppercased, stripped of characters other than word
characters and whitespace — `#` is removed too — then trimmed) contains
"ISBN13" or "EAN" as a substring after removing internal spaces; a bare
"ISBN" cell does not qualify, and when no row of the window qualifies it
fails. -/
theorem detect_header_amended (grid : List (List String)) :
    (detect_header grid = none ↔ ∀ row ∈ grid.take 20, rowHasKey row = false) ∧
    (∀ k : Nat, detect_header grid = some k →
      ∃ row, (grid.take 20)[k]? = some row ∧ rowHasKey row = true ∧
        ∀ j < k, ∀ row2, (grid.take 20)[j]? = some row2 → rowHasKey row2 = false) := by
  constructor
  · exact findRowIdx_eq_none
  · intro k h
    obtain ⟨-, row, hrow, hprow, hbefore⟩ := findRowIdx_eq_some h
    exact ⟨row, by simpa using hrow, hprow, fun j hj row2 hrow2 =>
      hbefore j (by omega) row2 hrow2⟩

/-- Claim C4 witness: a grid with no key-pattern cell in its rows yields
no header row. -/
theorem detect_header_amended_witness : detect_header [["TITLE", "AUTHOR"], ["1", "2"]] = none :=
  (detect_header_amended [["TITLE", "AUTHOR"], ["1", "2"]]).1.mpr (by decide)

/-! ### extract_isbns (src/app.py lines 75-82) -/

/-- Embedding of the set comprehension of src/app.py line 79 over a
decoded grid: the `clean_isbn`-normalized values of exactly the cells
whose content satisfies Python's `str.isnumeric` — with no stripping
beforehand.  The Python set is modelled by this list up to membership
(duplicates collapse). -/
def extract_isbns (grid : List (List String)) : List String :=
  (grid.flatten.filter (fun v => isNumStr v.data)).map (fun v => clean_isbn (some v))

/-- Modelled from the claim's words, for comparison with `extract_isbns`:
keep the cells whose content, after stripping surrounding whitespace,
consists entirely of decimal digits. -/
def extractIsbnsSpec (grid : List (List String)) : List String :=
  (grid.flatten.filter (fun v => isNumStr (pyStrip v.data))).map (fun v => clean_isbn (some v))

/-- Claim C6 counterexample: the cell " 123" consists entirely of decimal
digits after stripping, so the claim collects it (normalized to thirteen
digits), but the code tests `str(v).isnumeric()` on the unstripped cell,
which is false, and collects nothing. -/
theorem extract_isbns_cex :
    extract_isbns [[" 123"]] = [] ∧ extractIsbnsSpec [[" 123"]] = ["0000000000123"] := by
  decide

/-- Claim C6 (amended): `extract_isbns` returns the set (collapsing
duplicates, i.e. characterized by membership) of the `clean_isbn`-normalized
values of exactly those cells of the flattened grid whose content — taken
as is, with no stripping of surrounding whitespace — consists entirely of
decimal digits; all other cells contribute nothing. -/
theorem extract_isbns_amended (grid : List (List String)) (v : String) :
    v ∈ extract_isbns grid ↔
      ∃ cell, cell ∈ grid.flatten ∧ isNumStr cell.data = true ∧
        v = clean_isbn (some cell) := by
  simp only [extract_isbns, List.mem_map, List.mem_filter]
  constructor
  · rintro ⟨cell, ⟨hmem, hnum⟩, he⟩
    exact ⟨cell, hmem, hnum, he.symm⟩
  · rintro ⟨cell, hmem, hnum, he⟩
    exact ⟨cell, ⟨hmem, hnum⟩, he.symm⟩

/-- Claim C6 witness: the all-digit cell "42" is collected and normalized
to thirteen digits. -/
theorem extract_isbns_amended_witness :
    "0000000000042" ∈ extract_isbns [["42", "title"]] :=
  (extract_isbns_amended [["42", "title"]] "0000000000042").mpr
    ⟨"42", by decide, by decide, by decide⟩

/-- Result of reading the exclusion file: extracted identifiers plus the
log lines emitted. -/
structure ExclResult where
  isbns : List String
  log : List String
deriving DecidableEq

/-- Embedding of the error handling of `extract_isbns` (src/app.py lines
75-82): the decode step (`pd.read_excel`) either yields a grid or raises;
the `except` branch logs the error (line 81) and returns the empty set
(line 82) instead of propagating. -/
def extract_isbns_run (decoded : Except String (List (List String))) : ExclResult :=
  match decoded with
  | Except.ok g => ⟨extract_isbns g, []⟩
  | Except.error e => ⟨[], ["Error reading ISBN removal file: " ++ e]⟩

/-- Claim C7: when decoding the exclusion file fails, for any reason `e`,
`extract_isbns` returns an empty set instead of propagating the error, so
the run continues with no rows excluded, and the failure is made
observable by a log line naming the error. -/
theorem extract_isbns_error (e : String) :
    (extract_isbns_run (Except.error e)).isbns = [] ∧
    (extract_isbns_run (Except.error e)).log =
      ["Error reading ISBN removal file: " ++ e] ∧
    (extract_isbns_run (Except.error e)).log ≠ [] := by
  refine ⟨rfl, rfl, ?_⟩
  simp [extract_isbns_run]

/-- Claim C7 witness: a concrete decode failure yields the empty set and a
non-empty log. -/
theorem extract_isbns_error_witness :
    (extract_isbns_run (Except.error "bad zip file")).isbns = [] ∧
    (extract_isbns_run (Except.error "bad zip file")).log ≠ [] :=
  ⟨(extract_isbns_error "bad zip file").1, (extract_isbns_error "bad zip file").2.2⟩

/-! ### CSV text decoding (src/app.py lines 43 and 57) -/

/-- ISO-8859-1 (Latin-1) decoding: every byte maps directly to the code
point of its value, so this codec cannot fail on any byte.  This is the
codec the arguments of src/app.py line 57 name (`encoding="ISO-8859-1"`);
see `processFileDecodeCsv` for why that call never actually reaches it. -/
def latin1Decode (bs : List Nat) : List Char :=
  bs.map (fun b => Char.ofNat (b % 256))

/-- Strict UTF-8 decoding (the default codec Python applies when
`pd.read_csv` is given no `encoding` argument, as in `detect_header`,
src/app.py line 43): `none` models the UnicodeDecodeError raised on an
invalid byte sequence. -/
def utf8Decode : List Nat → Option (List Char)
  | [] => some []
  | b :: rest =>
    if b ≤ 0x7F then (utf8Decode rest).map (fun cs => Char.ofNat b :: cs)
    else if 0xC2 ≤ b ∧ b ≤ 0xDF then
      match rest with
      | b2 :: rest2 =>
        if 0x80 ≤ b2 ∧ b2 ≤ 0xBF then
          (utf8Decode rest2).map (fun cs =>
            Char.ofNat ((b - 0xC0) * 0x40 + (b2 - 0x80)) :: cs)
        else none
      | [] => none
    else if b = 0xE0 then
      match rest with
      | b2 :: b3 :: rest2 =>
        if (0xA0 ≤ b2 ∧ b2 ≤ 0xBF) ∧ (0x80 ≤ b3 ∧ b3 ≤ 0xBF) then
          (utf8Decode rest2).map (fun cs =>
            Char.ofNat ((b2 - 0x80) * 0x40 + (b3 - 0x80)) :: cs)
        else none
      | _ => none
    else if (0xE1 ≤ b ∧ b ≤ 0xEC) ∨ b = 0xEE ∨ b = 0xEF then
      match rest with
      | b2 :: b3 :: rest2 =>
        if (0x80 ≤ b2 ∧ b2 ≤ 0xBF) ∧ (0x80 ≤ b3 ∧ b3 ≤ 0xBF) then
          (utf8Decode rest2).map (fun cs =>
            Char.ofNat ((b - 0xE0) * 0x1000 + (b2 - 0x80) * 0x40 + (b3 - 0x80)) :: cs)
        else none
      | _ => none
    else if b = 0xED then
      match rest with
      | b2 :: b3 :: rest2 =>
        if (0x80 ≤ b2 ∧ b2 ≤ 0x9F) ∧ (0x80 ≤ b3 ∧ b3 ≤ 0xBF) then
          (utf8Decode rest2).map (fun cs =>
            Char.ofNat (0xD000 + (b2 - 0x80) * 0x40 + (b3 - 0x80)) :: cs)
        else none
      | _ => none
    else if b = 0xF0 then
      match rest with
      | b2 :: b3 :: b4 :: rest2 =>
        if (0x90 ≤ b2 ∧ b2 ≤ 0xBF) ∧ (0x80 ≤ b3 ∧ b3 ≤ 0xBF) ∧ (0x80 ≤ b4 ∧ b4 ≤ 0xBF) then
          (utf8Decode rest2).map (fun cs =>
            Char.ofNat ((b2 - 0x80) * 0x1000 + (b3 - 0x80) * 0x40 + (b4 - 0x80)) :: cs)
        else none
      | _ => none
    else if (0xF1 ≤ b ∧ b ≤ 0xF3) ∨ b = 0xF4 then
      match rest with
      | b2 :: b3 :: b4 :: rest2 =>
        if (0x80 ≤ b2 ∧ (if b = 0xF4 then b2 ≤ 0x8F else b2 ≤ 0xBF)) ∧
            (0x80 ≤ b3 ∧ b3 ≤ 0xBF) ∧ (0x80 ≤ b4 ∧ b4 ≤ 0xBF) then
          (utf8Decode rest2).map (fun cs =>
            Char.ofNat ((b - 0xF0) * 0x40000 + (b2 - 0x80) * 0x1000 +
              (b3 - 0x80) * 0x40 + (b4 - 0x80)) :: cs)
        else none
      | _ => none
    else none

/-- The decode `detect_header` performs on a CSV file (src/app.py line 43,
no `encoding` argument, hence strict UTF-8). -/
def headerScanDecodeCsv (bs : List Nat) : Option (List Char) :=
  utf8Decode bs

/-- The full re-decode `process_file` attempts on a CSV file (src/app.py
line 57): `pd.read_csv(file_obj, encoding="ISO-8859-1", dtype=str,
errors="replace", header=hdr)`.  The keyword `errors` is not a parameter
of `pd.read_csv` (the parameter with that role is `encoding_errors`;
`errors` belongs to `DataFrame.to_csv`), so Python raises
`TypeError: read_csv() got an unexpected keyword argument` before a single
byte is decoded — the call fails on every input, valid and invalid bytes
alike.  The ISO-8859-1 decoding the arguments name (`latin1Decode`) is
never reached. -/
def processFileDecodeCsv (_bs : List Nat) : Except String (List Char) :=
  Except.error "TypeError: read_csv() got an unexpected keyword argument errors"

/-- The decode sequence a CSV file goes through in `process_file`: the
header scan decode runs first (line 53 calls `detect_header`, whose
`pd.read_csv` uses the strict UTF-8 default), and only if it succeeds is
the full re-decode of line 57 attempted. -/
def processFileCsvDecodeSeq (bs : List Nat) : Except String (List Char) :=
  match headerScanDecodeCsv bs with
  | none => Except.error "UnicodeDecodeError"
  | some _ => processFileDecodeCsv bs

/-- Claim C9: the claim (and src/app.py's own visible intent — line 57
names the permissive ISO-8859-1 codec and passes `errors="replace"`
precisely to replace undecodable bytes rather than fail) is that CSV
decoding tolerates non-UTF8 bytes; the code contradicts it twice.  The
header-detection scan (line 43) passes no `encoding`, so its strict UTF-8
decode aborts on the byte 0xFF with an encoding error; and the full
re-decode (line 57) passes `errors="replace"`, which `pd.read_csv`
rejects, so it raises `TypeError` on every byte sequence whatsoever — even
though the ISO-8859-1 codec it names would have decoded every byte.  This
theorem evaluates the code model at the failing input and over all
inputs. -/
theorem csv_decode_code_bug :
    headerScanDecodeCsv [0xFF] = none ∧
    (∀ bs : List Nat, ∃ e : String, processFileDecodeCsv bs = Except.error e) ∧
    (∀ bs : List Nat, ∃ e : String, processFileCsvDecodeSeq bs = Except.error e) ∧
    latin1Decode [0xFF] = [Char.ofNat 0xFF] := by
  refine ⟨by decide, ?_, ?_, by decide⟩
  · intro bs
    exact ⟨"TypeError: read_csv() got an unexpected keyword argument errors", rfl⟩
  · intro bs
    rw [processFileCsvDecodeSeq]
    cases headerScanDecodeCsv bs with
    | none => exact ⟨"UnicodeDecodeError", rfl⟩
    | some cs =>
      exact ⟨"TypeError: read_csv() got an unexpected keyword argument errors", rfl⟩
